import Mathlib

/-!
Shallow embedding of the Aralez execution engine (src/config.rs and
src/execute.rs) and verification of the frozen claims about it.

Strings from the Rust source are modelled as Lean `String`s, except the
output-filename template machinery, which is modelled over `List Char` so
that the substring-replacement semantics of Rust's `str::replace` can be
reasoned about directly.  Machine integers (`u8`, `u64`) only occur as
sort keys or opaque sizes in the claims, so they are modelled as `Nat`
(no arithmetic is performed on them).  Effectful operations (file I/O,
process spawning, OS resource lookup) are modelled by an explicit
environment of oracles describing each fallible operation's outcome, and
the functions return traces of events so that the claims about side
effects become properties of the trace.
-/

namespace Aralez

/-- `TypeConfig` from src/config.rs (match-type tag `string`/`glob`/`regex`). -/
inductive TypeConfig where
  | string
  | glob
  | regex
deriving DecidableEq, Repr

/-- `TypeTasks` from src/config.rs (section kind `execute`/`collect`). -/
inductive TypeTasks where
  | execute
  | collect
deriving DecidableEq, Repr

/-- `TypeExec` from src/config.rs, imported as `ExecType` by src/execute.rs:
the execution-strategy tag `external`/`internal`/`system`. -/
inductive ExecType where
  | external
  | internal
  | system
deriving DecidableEq, Repr

/-- `SearchConfig` from src/config.rs: one manifest entry.  The field
`r#type` of the source is rendered `type` here. -/
structure SearchConfig where
  dir_path : Option String
  name : Option String
  output_file : Option String
  args : Option (List String)
  objects : Option (List String)
  max_size : Option Nat
  encrypt : Option String
  type : Option TypeConfig
  exec_type : Option ExecType
deriving DecidableEq, Repr

/-- `SectionConfig` from src/config.rs.  `priority` is a `u8` in the source;
it is only ever compared, never computed with, so `Nat` is a faithful model
of its ordering.  The `entries` `HashMap` is modelled as an association
list in the order the map hands its pairs out. -/
structure SectionConfig where
  priority : Nat
  type : TypeTasks
  entries : List (String × List SearchConfig)
deriving DecidableEq, Repr

/-- `Config` from src/config.rs.  The `tasks` `HashMap` is modelled as an
association list in the (arbitrary) order the map's iterator hands the
pairs out; `output_filename` is the template string, modelled as a char
list for the replacement reasoning below. -/
structure Config where
  tasks : List (String × SectionConfig)
  output_filename : List Char

/-- Observable effects of the execution engine (src/execute.rs).  Log lines
(`dprintln!`) become `logError`/`logInfo`/`logExitCode` events; filesystem
and process operations become the remaining events.  `createFile` is the
temp-file staging write of `save_to_temp_file`; `spawn` is the
`Command::spawn` attempt; `writeOutput`/`flushOutput` are the
create-truncate-write-flush of `save_output_to_file`; `cleanupTemp` is the
call to `cleanup_temp_file` (the deletion attempt); `removeFile` is a
successful `remove_file` inside it. -/
inductive Event where
  | logError (msg : String)
  | logInfo (msg : String)
  | logExitCode (code : Int)
  | createFile (path : String) (bytes : List Nat)
  | spawn (exe : String) (args : List String)
  | writeOutput (path : String) (bytes : List Nat)
  | flushOutput (path : String)
  | cleanupTemp (path : String)
  | removeFile (path : String)
deriving DecidableEq, Repr

/-- `std::process::Output` as used by src/execute.rs: the exit code (absent
when the child was killed by a signal), and the captured stdout/stderr
byte streams. -/
structure ProcOutput where
  code : Option Int
  stdout : List Nat
  stderr : List Nat
deriving DecidableEq, Repr

/-- Oracle environment for one call to `run`: the outcome of each fallible
OS interaction, fixed up front.  `saveTempOk` — whether
`save_to_temp_file`'s create+write succeeds; `spawnOk` — whether
`Command::spawn` succeeds; `waitResult` — `wait_with_output`'s result
(`none` = I/O error); `writeOutputOk` — whether `save_output_to_file`
succeeds; `tempExists` — whether the staged file still exists when
`cleanup_temp_file` checks; `removeOk` — whether `remove_file` succeeds. -/
structure RunEnv where
  saveTempOk : Bool
  spawnOk : Bool
  waitResult : Option ProcOutput
  writeOutputOk : Bool
  tempExists : Bool
  removeOk : Bool
deriving DecidableEq, Repr

/-- `Path::new(output_path).join(filename)` from `save_to_temp_file`
(src/execute.rs line 203), modelled as separator-joined concatenation. -/
def joinPath (dir file : String) : String :=
  dir ++ "/" ++ file

/-- `cleanup_temp_file` from src/execute.rs lines 220-227: log, then if the
path exists remove it; a failing `remove_file` is surfaced as the `Err`
that `run` logs (modelled as the trailing `logError`). -/
def cleanupEvents (env : RunEnv) (path : String) : List Event :=
  Event.cleanupTemp path ::
    (if env.tempExists then
      (if env.removeOk then [Event.removeFile path]
       else [Event.logError "Failed to clean up temp file"])
    else [])

/-- The process section of `run` (src/execute.rs lines 88-131): spawn the
executable, wait for it capturing output, log the exit code
(`code().unwrap_or(-1)`), write the captured stdout via
`save_output_to_file`, then run `tailEvents` (the External-only cleanup;
`[]` otherwise) and log completion.  The early `return`s on spawn and wait
failure cut the trace short exactly as in the source. -/
def runProcess (env : RunEnv) (name : String) (args : List String)
    (output_file : String) (tailEvents : List Event) : List Event :=
  if env.spawnOk then
    Event.spawn name args :: Event.logInfo "Starting execution" ::
      (match env.waitResult with
       | none => [Event.logError "Failed to execute"]
       | some output =>
         Event.logExitCode (output.code.getD (-1)) ::
           ((if env.writeOutputOk then
               [Event.writeOutput output_file output.stdout,
                Event.flushOutput output_file]
             else [Event.logError "Failed to save output to file"]) ++
            tailEvents ++
            [Event.logInfo "The output has been saved",
             Event.logInfo "Execution completed"]))
  else
    [Event.spawn name args, Event.logError "Failed to spawn process"]

/-- `run` from src/execute.rs lines 47-131.  For `External`, missing
payload bytes or a missing staging directory each log an error and return;
otherwise the payload is staged to `<output_path>/<name>` (failure of the
staging write also logs and returns) and the staged path replaces `name`.
Then the process is spawned, waited on, its stdout saved, and — only for
`External` — the staged file is cleaned up at the end of the successful
wait path. -/
def run (env : RunEnv) (name : String) (args : List String)
    (exec_type : ExecType) (exe_bytes : Option (List Nat))
    (output_path : Option String) (output_file : String) : List Event :=
  if exec_type = ExecType.external then
    match exe_bytes with
    | none => [Event.logError "Content of the external file not found"]
    | some buffer =>
      match output_path with
      | none => [Event.logError "The output path for the executable not found"]
      | some path =>
        if env.saveTempOk then
          Event.createFile (joinPath path name) buffer ::
            runProcess env (joinPath path name) args output_file
              (cleanupEvents env (joinPath path name))
        else
          [Event.logError "Failed to save to temp file"]
  else
    runProcess env name args output_file []

/-- The builtin collectors (`process::run`, `process_details::run`,
`network_info::run_network_info`) live in modules whose files are not part
of the given sources; per the spec they are opaque collaborators that
write findings to the output path.  They are modelled as arbitrary trace
oracles indexed by the output filename. -/
structure CollectorEnv where
  procInfo : String → List Event
  procDetailsInfo : String → List Event
  portsInfo : String → List Event

/-- The closed set of builtin collector names recognised by
`run_internal` (src/execute.rs lines 28-42). -/
def internalTools : List String :=
  ["ProcInfo", "ProcDetailsInfo", "PortsInfo"]

/-- `run_internal` from src/execute.rs lines 22-45: log the start, dispatch
on the tool name; an unrecognised name logs "Internal tool not found" and
returns before the two trailing info logs. -/
def run_internal (env : CollectorEnv) (tool_name : String)
    (output_filename : String) : List Event :=
  Event.logInfo "Starting execution" ::
    (if tool_name = "ProcInfo" then
      env.procInfo output_filename ++
        [Event.logInfo "The output has been saved",
         Event.logInfo "Execution completed"]
    else if tool_name = "ProcDetailsInfo" then
      env.procDetailsInfo output_filename ++
        [Event.logInfo "The output has been saved",
         Event.logInfo "Execution completed"]
    else if tool_name = "PortsInfo" then
      env.portsInfo output_filename ++
        [Event.logInfo "The output has been saved",
         Event.logInfo "Execution completed"]
    else
      [Event.logError "Internal tool not found"])

/-- `Config::get_tasks` from src/config.rs: clone the `tasks` pairs into a
vector and sort it by `priority` (`Vec::sort_by_key`, a stable merge sort,
modelled by the stable `List.mergeSort`). -/
def Config.get_tasks (cfg : Config) : List (String × SectionConfig) :=
  cfg.tasks.mergeSort (fun a b => decide (a.2.priority ≤ b.2.priority))

/-- The build-time and OS environment of `get_bin`/`extract_resource`
(src/execute.rs lines 133-199).  The eight `include_bytes!` payloads are
files under `tools/` that are not part of the given sources, so their
contents are parameters; `resource` models `extract_resource`, the lookup
of a custom type-10 resource in the running image — an OS interaction
whose every failure mode (null module handle, resource absent, zero size)
collapses to `none`. -/
structure ToolEnv where
  autorunsc : List Nat
  handle : List Nat
  tcpvcon : List Nat
  pslist : List Nat
  listdlls : List Nat
  psservice : List Nat
  pipelist : List Nat
  winpmem : List Nat
  resource : String → Option (List Nat)

/-- The names of the compiled-in static payload table of `get_bin`
(src/execute.rs lines 135-142). -/
def staticNames : List String :=
  ["autorunsc.exe", "handle.exe", "tcpvcon.exe", "pslist.exe",
   "Listdlls.exe", "PsService.exe", "pipelist.exe", "winpmem_mini_x64_rc2.exe"]

/-- The payload the static table associates to each of its names. -/
def staticBytes (env : ToolEnv) (name : String) : List Nat :=
  if name = "autorunsc.exe" then env.autorunsc
  else if name = "handle.exe" then env.handle
  else if name = "tcpvcon.exe" then env.tcpvcon
  else if name = "pslist.exe" then env.pslist
  else if name = "Listdlls.exe" then env.listdlls
  else if name = "PsService.exe" then env.psservice
  else if name = "pipelist.exe" then env.pipelist
  else if name = "winpmem_mini_x64_rc2.exe" then env.winpmem
  else []

/-- `get_bin` from src/execute.rs lines 133-150: match the name against the
static table; on no match fall back to `extract_resource`, and turn its
failure into the `[ERROR] {name} not found` error. -/
def get_bin (env : ToolEnv) (name : String) : Except String (List Nat) :=
  if name = "autorunsc.exe" then Except.ok env.autorunsc
  else if name = "handle.exe" then Except.ok env.handle
  else if name = "tcpvcon.exe" then Except.ok env.tcpvcon
  else if name = "pslist.exe" then Except.ok env.pslist
  else if name = "Listdlls.exe" then Except.ok env.listdlls
  else if name = "PsService.exe" then Except.ok env.psservice
  else if name = "pipelist.exe" then Except.ok env.pipelist
  else if name = "winpmem_mini_x64_rc2.exe" then Except.ok env.winpmem
  else
    match env.resource name with
    | some bytes => Except.ok bytes
    | none => Except.error ("[ERROR] " ++ name ++ " not found")

/-- Whether a `get_bin` result is the NotFound-style error. -/
def isErr : Except String (List Nat) → Bool
  | Except.error _ => true
  | Except.ok _ => false

/-- Is this event the `cleanup_temp_file` deletion attempt? -/
def isCleanupEvent : Event → Bool
  | Event.cleanupTemp _ => true
  | _ => false

/-- Is this event a temp-file staging write? -/
def isCreateEvent : Event → Bool
  | Event.createFile _ _ => true
  | _ => false

/-- Is this event a successful file removal? -/
def isRemoveEvent : Event → Bool
  | Event.removeFile _ => true
  | _ => false

/-- Does the trace contain a deletion attempt? -/
def hasCleanup (tr : List Event) : Bool := tr.any isCleanupEvent

/-- Does the trace contain a temp-file staging write? -/
def hasCreate (tr : List Event) : Bool := tr.any isCreateEvent

/-- Does the trace contain a file removal? -/
def hasRemove (tr : List Event) : Bool := tr.any isRemoveEvent

/-- A filesystem: partial map from path to file contents. -/
abbrev FS := String → Option (List Nat)

/-- Filesystem meaning of one event.  `createFile` and `writeOutput` both
go through `File::create`, which creates-or-truncates, so the resulting
contents are exactly the written bytes whatever was there before;
`removeFile` deletes; everything else leaves the filesystem alone. -/
def applyEvent (fs : FS) : Event → FS
  | Event.createFile p b => fun q => if q = p then some b else fs q
  | Event.writeOutput p b => fun q => if q = p then some b else fs q
  | Event.removeFile p => fun q => if q = p then none else fs q
  | _ => fs

/-- Filesystem after a trace. -/
def runFS (fs : FS) (tr : List Event) : FS := tr.foldl applyEvent fs

/-- The payloads written to `path` by the trace, in order. -/
def writeEvents (tr : List Event) (path : String) : List (List Nat) :=
  tr.filterMap (fun e =>
    match e with
    | Event.writeOutput p b => if p = path then some b else none
    | _ => none)

/-- Concrete oracle: staging succeeds but `Command::spawn` fails. -/
def envSpawnFail : RunEnv :=
  { saveTempOk := true, spawnOk := false, waitResult := none,
    writeOutputOk := true, tempExists := true, removeOk := true }

/-- Concrete oracle: spawn and wait succeed but the output write fails. -/
def envWriteFail : RunEnv :=
  { saveTempOk := true, spawnOk := true,
    waitResult := some { code := some 0, stdout := [104, 105], stderr := [] },
    writeOutputOk := false, tempExists := true, removeOk := true }

/-- Concrete oracle: everything succeeds, but the child died by signal so
it has no exit code. -/
def envNoCode : RunEnv :=
  { saveTempOk := true, spawnOk := true,
    waitResult := some { code := none, stdout := [5, 6], stderr := [7] },
    writeOutputOk := true, tempExists := true, removeOk := true }

/-- Concrete collector oracle producing empty traces. -/
def collectorEnvW : CollectorEnv :=
  { procInfo := fun _ => [], procDetailsInfo := fun _ => [], portsInfo := fun _ => [] }

/-- Concrete payload environment: one resource-embedded extra tool. -/
def toolEnvW : ToolEnv :=
  { autorunsc := [1], handle := [2], tcpvcon := [3], pslist := [4],
    listdlls := [5], psservice := [6], pipelist := [7], winpmem := [8],
    resource := fun n => if n = "extra.exe" then some [9] else none }

/-- A char list containing neither brace character.  Literal template text
and substituted values are braceless in every intended run; the template
tokens `{{...}}` supply all the braces. -/
def braceless (s : List Char) : Prop :=
  '{' ∉ s ∧ '}' ∉ s

instance (s : List Char) : Decidable (braceless s) :=
  inferInstanceAs (Decidable (_ ∧ _))

/-- Rust's `str::replace s pat rep` on char lists: scan left to right; at a
position where `pat` matches, emit `rep` and continue after the match
(occurrences are non-overlapping), otherwise keep the char and move on.
The sources only ever call it with the nonempty patterns `{{hostname}}`
and `{{datetime}}`; for an empty pattern this model returns `s` unchanged. -/
def replaceList (s pat rep : List Char) : List Char :=
  match s with
  | [] => []
  | c :: rest =>
    if h : 0 < pat.length ∧ pat <+: (c :: rest) then
      rep ++ replaceList ((c :: rest).drop pat.length) pat rep
    else
      c :: replaceList rest pat rep
termination_by s.length
decreasing_by
  · simp only [List.length_drop, List.length_cons]
    omega
  · simp only [List.length_cons]
    omega

/-- The template token `{{w}}` spelled out as a char list, as built by
`format!("{{{{{}}}}}", key)` in `get_output_filename`
(src/config.rs line 220). -/
def tokStr (w : List Char) : List Char :=
  '{' :: '{' :: (w ++ ['}', '}'])

/-- A template decomposed into segments: literal text or a `{{w}}` token.
This is the ambient decomposition of a template string; `render` maps it
back to the flat char list the source works on. -/
inductive Seg where
  | lit (s : List Char)
  | tok (w : List Char)
deriving DecidableEq, Repr

/-- Flatten one segment to its chars. -/
def renderSeg : Seg → List Char
  | Seg.lit s => s
  | Seg.tok w => tokStr w

/-- Flatten a segment list to the template string it denotes. -/
def render : List Seg → List Char
  | [] => []
  | g :: rest => renderSeg g ++ render rest

/-- Well-formed segment: literal text and token keys are braceless. -/
def segOk : Seg → Prop
  | Seg.lit s => braceless s
  | Seg.tok w => braceless w

instance : DecidablePred segOk := fun g =>
  match g with
  | Seg.lit s => inferInstanceAs (Decidable (braceless s))
  | Seg.tok w => inferInstanceAs (Decidable (braceless w))

/-- Substitute the token with key `key` by the literal `val`, leaving every
other segment alone. -/
def substTok (key val : List Char) : Seg → Seg
  | Seg.lit s => Seg.lit s
  | Seg.tok w => if w = key then Seg.lit val else Seg.tok w

/-- Decimal digits of `n`, most significant first. -/
def natDigits (n : Nat) : List Char :=
  if h : n < 10 then [Nat.digitChar n]
  else natDigits (n / 10) ++ [Nat.digitChar (n % 10)]
termination_by n
decreasing_by
  exact Nat.div_lt_self (by omega) (by omega)

/-- Zero-pad `n` to at least `width` digits (chrono's `%Y`/`%m`/... padding). -/
def pad (width n : Nat) : List Char :=
  List.replicate (width - (natDigits n).length) '0' ++ natDigits n

/-- Modelled from the spec: the chrono `Local::now().format(...)` call of
`get_output_filename` (src/config.rs lines 210-211); chrono itself is an
external library, but the format string `%Y-%m-%d_%H-%M-%S` is in the
source: the local time rendered `YYYY-MM-DD_HH-MM-SS`, each field
zero-padded (`%Y` to four digits, the rest to two). -/
def formatDatetime (y mo d h mi s : Nat) : List Char :=
  pad 4 y ++ '-' ::
    (pad 2 mo ++ '-' ::
      (pad 2 d ++ '_' ::
        (pad 2 h ++ '-' ::
          (pad 2 mi ++ '-' :: pad 2 s))))

/-- The replacement loop of `get_output_filename` (src/config.rs lines
213-221): replace `{{hostname}}` by the machine name and `{{datetime}}` by
the datetime string.  The source iterates a two-entry `HashMap`, whose
order is unspecified; this model fixes hostname-then-datetime (under the
braceless hypotheses of the theorems below the two orders coincide). -/
def expandTemplate (host dt template : List Char) : List Char :=
  replaceList (replaceList template (tokStr ("hostname".toList)) host)
    (tokStr ("datetime".toList)) dt

/-- `Config::get_output_filename` from src/config.rs lines 203-223.
`hostRes` models `hostname::get().ok().and_then(|h| h.into_string().ok())`
— `none` when the machine name cannot be obtained or cannot be converted
to a string — and `unwrap_or_else` supplies the literal fallback
`"machine"`.  The time is passed as its six fields. -/
def get_output_filename (hostRes : Option (List Char)) (y mo d h mi s : Nat)
    (template : List Char) : List Char :=
  expandTemplate (hostRes.getD ("machine".toList)) (formatDatetime y mo d h mi s)
    template

/-- Concrete segment template used as a witness input: literal text, a
hostname token, a datetime token, and an unrecognised token. -/
def segsW : List Seg :=
  [Seg.lit ("report-".toList), Seg.tok ("hostname".toList),
   Seg.lit ("-".toList), Seg.tok ("datetime".toList), Seg.tok ("other".toList)]

/-- C3: For every manifest, the task scheduler's section list (`get_tasks`)
is sorted in non-decreasing priority order, and it contains exactly the
sections of the manifest — it is a permutation of the `tasks` pairs, so no
section is dropped or duplicated. -/
theorem get_tasks_sorted_and_complete (cfg : Config) :
    List.Sorted (fun a b : String × SectionConfig => a.2.priority ≤ b.2.priority)
      cfg.get_tasks
    ∧ cfg.get_tasks.Perm cfg.tasks := by
  constructor
  · have h := @List.sorted_mergeSort (String × SectionConfig)
      (fun a b => decide (a.2.priority ≤ b.2.priority))
      (fun a b c hab hbc => by
        simp only [decide_eq_true_eq] at *
        exact le_trans hab hbc)
      (fun a b => by
        simp only [Bool.or_eq_true, decide_eq_true_eq]
        exact le_total a.2.priority b.2.priority)
      cfg.tasks
    unfold List.Sorted
    unfold Config.get_tasks
    exact h.imp (fun hab => by simpa using hab)
  · exact List.mergeSort_perm cfg.tasks _

/-- C1 (counterexample): the claim that temp-file deletion is attempted on
every exit path fails: when `Command::spawn` fails, `run` returns before
the cleanup block, so the staged file is never deleted — here the payload
was staged (the `createFile` event is in the trace) yet no `cleanupTemp`
event ever occurs. -/
theorem cleanup_not_attempted_on_spawn_failure :
    Event.createFile (joinPath "C:/stage" "tool.exe") [1, 2] ∈
        run envSpawnFail "tool.exe" [] ExecType.external (some [1, 2])
          (some "C:/stage") "out.txt"
      ∧ hasCleanup (run envSpawnFail "tool.exe" [] ExecType.external (some [1, 2])
          (some "C:/stage") "out.txt") = false := by
  decide

/-- C1 (amended): for every External entry whose payload was staged,
deletion of the staged temp file is attempted whenever the spawned process
is successfully waited on — in particular regardless of whether the output
write succeeds or fails and regardless of the exit code — but on the
spawn-failure and wait-failure exit paths `run` returns early without
attempting deletion. -/
theorem cleanup_attempted_after_wait (env : RunEnv) (name : String)
    (args : List String) (buffer : List Nat) (path output_file : String)
    (out : ProcOutput)
    (hsave : env.saveTempOk = true) (hspawn : env.spawnOk = true)
    (hwait : env.waitResult = some out) :
    Event.cleanupTemp (joinPath path name) ∈
      run env name args ExecType.external (some buffer) (some path) output_file := by
  cases hw : env.writeOutputOk <;>
    simp [run, runProcess, cleanupEvents, hsave, hspawn, hwait, hw]

/-- Witness for C1's amended theorem at a concrete input where the output
write fails: cleanup is still attempted. -/
theorem cleanup_attempted_after_wait_witness :
    envWriteFail.saveTempOk = true ∧ envWriteFail.spawnOk = true
      ∧ envWriteFail.waitResult
          = some { code := some 0, stdout := [104, 105], stderr := [] }
      ∧ Event.cleanupTemp (joinPath "C:/stage" "tool.exe") ∈
          run envWriteFail "tool.exe" [] ExecType.external (some [1])
            (some "C:/stage") "out.txt" :=
  ⟨by decide, by decide, by decide,
    cleanup_attempted_after_wait envWriteFail "tool.exe" [] [1] "C:/stage"
      "out.txt" { code := some 0, stdout := [104, 105], stderr := [] }
      (by decide) (by decide) (by decide)⟩

/-- C2: an External entry with no payload bytes, or no staging directory,
produces nothing but a single error log: no temp file is created, no
process is spawned, and no output file is written. -/
theorem external_unresolved_no_side_effects (env : RunEnv) (name : String)
    (args : List String) (exe_bytes : Option (List Nat))
    (output_path : Option String) (output_file : String)
    (h : exe_bytes = none ∨ output_path = none) :
    ∃ m, run env name args ExecType.external exe_bytes output_path output_file
          = [Event.logError m] := by
  rcases h with h | h
  · subst h
    exact ⟨"Content of the external file not found", by simp [run]⟩
  · subst h
    cases exe_bytes with
    | none =>
      exact ⟨"Content of the external file not found", by simp [run]⟩
    | some buffer =>
      exact ⟨"The output path for the executable not found", by simp [run]⟩

/-- Witness for C2 at a concrete input with missing payload bytes. -/
theorem external_unresolved_no_side_effects_witness :
    ((none : Option (List Nat)) = none ∨ (some "C:/stage" : Option String) = none)
      ∧ ∃ m, run envSpawnFail "tool.exe" [] ExecType.external none
              (some "C:/stage") "out.txt" = [Event.logError m] :=
  ⟨Or.inl rfl,
    external_unresolved_no_side_effects envSpawnFail "tool.exe" [] none
      (some "C:/stage") "out.txt" (Or.inl rfl)⟩

/-- C4: `get_bin` tries two tiers in order.  A name in the static table
yields the table's embedded bytes, and the result does not depend on the
resource oracle at all; a name outside the table yields the
embedded-resource lookup's bytes when that succeeds; and the result is the
NotFound-style error exactly when the name is outside the table and the
resource lookup fails. -/
theorem get_bin_two_tiers (env : ToolEnv) (r : String → Option (List Nat))
    (name : String) (b : List Nat) :
    (name ∈ staticNames →
      get_bin env name = Except.ok (staticBytes env name)
      ∧ get_bin { env with resource := r } name = get_bin env name)
    ∧ (name ∉ staticNames → env.resource name = some b →
        get_bin env name = Except.ok b)
    ∧ (isErr (get_bin env name) = true ↔
        (name ∉ staticNames ∧ env.resource name = none)) := by
  refine ⟨?_, ?_, ?_⟩
  · intro h
    simp only [staticNames, List.mem_cons, List.not_mem_nil, or_false] at h
    rcases h with rfl | rfl | rfl | rfl | rfl | rfl | rfl | rfl <;>
      exact ⟨rfl, rfl⟩
  · intro h hb
    simp only [staticNames, List.mem_cons, List.not_mem_nil, or_false,
      not_or] at h
    obtain ⟨h1, h2, h3, h4, h5, h6, h7, h8⟩ := h
    simp [get_bin, h1, h2, h3, h4, h5, h6, h7, h8, hb]
  · by_cases h : name ∈ staticNames
    · constructor
      · intro hErr
        exfalso
        simp only [staticNames, List.mem_cons, List.not_mem_nil, or_false] at h
        rcases h with rfl | rfl | rfl | rfl | rfl | rfl | rfl | rfl <;>
          simp [get_bin, isErr] at hErr
      · intro hc
        exact absurd h hc.1
    · have hne := h
      simp only [staticNames, List.mem_cons, List.not_mem_nil, or_false,
        not_or] at hne
      obtain ⟨h1, h2, h3, h4, h5, h6, h7, h8⟩ := hne
      cases hr : env.resource name with
      | none =>
        simp [get_bin, isErr, h1, h2, h3, h4, h5, h6, h7, h8, hr, h]
      | some bytes =>
        simp [get_bin, isErr, h1, h2, h3, h4, h5, h6, h7, h8, hr]

/-- Witness for C4 at concrete inputs: a static name, a resource-backed
name, and a missing name. -/
theorem get_bin_two_tiers_witness :
    get_bin toolEnvW "pslist.exe" = Except.ok (staticBytes toolEnvW "pslist.exe")
      ∧ get_bin toolEnvW "extra.exe" = Except.ok [9]
      ∧ isErr (get_bin toolEnvW "missing.exe") = true :=
  ⟨((get_bin_two_tiers toolEnvW (fun _ => none) "pslist.exe" []).1 (by decide)).1,
    (get_bin_two_tiers toolEnvW (fun _ => none) "extra.exe" [9]).2.1
      (by decide) (by decide),
    ((get_bin_two_tiers toolEnvW (fun _ => none) "missing.exe" []).2.2).2
      ⟨by decide, by decide⟩⟩

/-- C5: for every entry whose spawn and wait succeed and whose output write
succeeds, exactly one write is made to the entry's `output_file` and its
payload is verbatim the captured stdout; the file is flushed; and since
the write goes through create-or-truncate, the final filesystem contents
at `output_file` are the captured stdout whatever was there before
(quantified over every starting filesystem `fs`).  Stated for System
entries and for External entries (the latter under successful staging and
a staged path distinct from the output path, since External cleanup later
removes the staged path). -/
theorem output_file_is_captured_stdout (env : RunEnv) (name : String)
    (args : List String) (b : Option (List Nat)) (p : Option String)
    (output_file : String) (buffer : List Nat) (path : String)
    (out : ProcOutput) (fs : FS)
    (hspawn : env.spawnOk = true) (hwait : env.waitResult = some out)
    (hwrite : env.writeOutputOk = true) :
    (writeEvents (run env name args ExecType.system b p output_file) output_file
        = [out.stdout]
      ∧ Event.flushOutput output_file ∈
          run env name args ExecType.system b p output_file
      ∧ runFS fs (run env name args ExecType.system b p output_file) output_file
        = some out.stdout)
    ∧ (env.saveTempOk = true → joinPath path name ≠ output_file →
        writeEvents
            (run env name args ExecType.external (some buffer) (some path)
              output_file) output_file
          = [out.stdout]
        ∧ Event.flushOutput output_file ∈
            run env name args ExecType.external (some buffer) (some path)
              output_file
        ∧ runFS fs
            (run env name args ExecType.external (some buffer) (some path)
              output_file) output_file
          = some out.stdout) := by
  constructor
  · refine ⟨?_, ?_, ?_⟩
    · simp [run, runProcess, writeEvents, hspawn, hwait, hwrite]
    · simp [run, runProcess, hspawn, hwait, hwrite]
    · simp [run, runProcess, runFS, applyEvent, hspawn, hwait, hwrite]
  · intro hsave hne
    refine ⟨?_, ?_, ?_⟩
    · cases he : env.tempExists <;> cases hr : env.removeOk <;>
        simp [run, runProcess, cleanupEvents, writeEvents, hsave, hspawn,
          hwait, hwrite, he, hr]
    · cases he : env.tempExists <;> cases hr : env.removeOk <;>
        simp [run, runProcess, cleanupEvents, hsave, hspawn, hwait, hwrite,
          he, hr]
    · cases he : env.tempExists <;> cases hr : env.removeOk <;>
        simp [run, runProcess, cleanupEvents, runFS, applyEvent, hsave,
          hspawn, hwait, hwrite, he, hr, hne, Ne.symm hne]

/-- Witness for C5 at a concrete input (System entry and External entry
with distinct staged and output paths, over the empty filesystem). -/
theorem output_file_is_captured_stdout_witness :
    (writeEvents (run envNoCode "cmd.exe" [] ExecType.system none none "out.txt")
          "out.txt" = [[5, 6]]
      ∧ Event.flushOutput "out.txt" ∈
          run envNoCode "cmd.exe" [] ExecType.system none none "out.txt"
      ∧ runFS (fun _ => none)
          (run envNoCode "cmd.exe" [] ExecType.system none none "out.txt")
          "out.txt" = some [5, 6])
    ∧ (envNoCode.saveTempOk = true → joinPath "C:/stage" "tool.exe" ≠ "out.txt" →
        writeEvents
            (run envNoCode "tool.exe" [] ExecType.external (some [1])
              (some "C:/stage") "out.txt") "out.txt" = [[5, 6]]
        ∧ Event.flushOutput "out.txt" ∈
            run envNoCode "tool.exe" [] ExecType.external (some [1])
              (some "C:/stage") "out.txt"
        ∧ runFS (fun _ => none)
            (run envNoCode "tool.exe" [] ExecType.external (some [1])
              (some "C:/stage") "out.txt") "out.txt" = some [5, 6]) := by
  constructor
  · exact (output_file_is_captured_stdout envNoCode "cmd.exe" [] none none
      "out.txt" [1] "C:/stage" { code := none, stdout := [5, 6], stderr := [7] }
      (fun _ => none) (by decide) (by decide) (by decide)).1
  · exact (output_file_is_captured_stdout envNoCode "tool.exe" [] none none
      "out.txt" [1] "C:/stage" { code := none, stdout := [5, 6], stderr := [7] }
      (fun _ => none) (by decide) (by decide) (by decide)).2

/-- C6: a System entry never creates or deletes a temp file — its trace is
exactly the common spawn/wait/capture/output-write sequence `runProcess`
applied to the literal `name` with no cleanup tail and contains no
staging, cleanup or removal event — while an External entry whose staging
succeeded runs the very same `runProcess` sequence, just on the staged
path and with the cleanup tail appended. -/
theorem system_no_staging_no_cleanup (env : RunEnv) (name : String)
    (args : List String) (b : Option (List Nat)) (p : Option String)
    (output_file : String) (buffer : List Nat) (path : String) :
    run env name args ExecType.system b p output_file
        = runProcess env name args output_file []
      ∧ hasCreate (run env name args ExecType.system b p output_file) = false
      ∧ hasCleanup (run env name args ExecType.system b p output_file) = false
      ∧ hasRemove (run env name args ExecType.system b p output_file) = false
      ∧ (env.saveTempOk = true →
          run env name args ExecType.external (some buffer) (some path) output_file
            = Event.createFile (joinPath path name) buffer ::
                runProcess env (joinPath path name) args output_file
                  (cleanupEvents env (joinPath path name))) := by
  refine ⟨by simp [run], ?_, ?_, ?_, fun hsave => by simp [run, hsave]⟩
  all_goals
    cases hs : env.spawnOk
  all_goals
    try rcases hw : env.waitResult with _ | out
  all_goals
    try cases hwo : env.writeOutputOk
  all_goals
    simp [run, runProcess, hasCreate, hasCleanup, hasRemove, isCreateEvent,
      isCleanupEvent, isRemoveEvent, *]

/-- Witness for C6's staging-success conjunct at a concrete input. -/
theorem system_no_staging_no_cleanup_witness :
    envNoCode.saveTempOk = true
      ∧ run envNoCode "tool.exe" [] ExecType.external (some [1]) (some "C:/stage")
            "out.txt"
          = Event.createFile (joinPath "C:/stage" "tool.exe") [1] ::
              runProcess envNoCode (joinPath "C:/stage" "tool.exe") [] "out.txt"
                (cleanupEvents envNoCode (joinPath "C:/stage" "tool.exe")) :=
  ⟨by decide,
    (system_no_staging_no_cleanup envNoCode "tool.exe" [] none none "out.txt"
      [1] "C:/stage").2.2.2.2 (by decide)⟩

/-- C7: `run_internal` recognises exactly the closed set `ProcInfo`,
`ProcDetailsInfo`, `PortsInfo`, dispatching each to its collector; for any
name outside the set the trace is just the start log and the
"Internal tool not found" error — no file event, no other effect — and
the function returns normally. -/
theorem run_internal_dispatch (env : CollectorEnv) (tool output_filename : String)
    (h : tool ∉ internalTools) :
    run_internal env tool output_filename
        = [Event.logInfo "Starting execution",
           Event.logError "Internal tool not found"]
      ∧ run_internal env "ProcInfo" output_filename
        = Event.logInfo "Starting execution" ::
            (env.procInfo output_filename ++
              [Event.logInfo "The output has been saved",
               Event.logInfo "Execution completed"])
      ∧ run_internal env "ProcDetailsInfo" output_filename
        = Event.logInfo "Starting execution" ::
            (env.procDetailsInfo output_filename ++
              [Event.logInfo "The output has been saved",
               Event.logInfo "Execution completed"])
      ∧ run_internal env "PortsInfo" output_filename
        = Event.logInfo "Starting execution" ::
            (env.portsInfo output_filename ++
              [Event.logInfo "The output has been saved",
               Event.logInfo "Execution completed"]) := by
  simp only [internalTools, List.mem_cons, List.not_mem_nil, or_false,
    not_or] at h
  obtain ⟨h1, h2, h3⟩ := h
  exact ⟨by simp [run_internal, h1, h2, h3], by simp [run_internal],
    by simp [run_internal], by simp [run_internal]⟩

/-- Witness for C7 at the concrete unrecognised name "RegistryInfo". -/
theorem run_internal_dispatch_witness :
    "RegistryInfo" ∉ internalTools
      ∧ run_internal collectorEnvW "RegistryInfo" "out.txt"
          = [Event.logInfo "Starting execution",
             Event.logError "Internal tool not found"] :=
  ⟨by decide,
    (run_internal_dispatch collectorEnvW "RegistryInfo" "out.txt" (by decide)).1⟩

/-- C8: when the waited-on child has no exit code, `-1` is substituted in
the exit-code log only; the entry does not fail — execution reaches the
final completion log — and (when the output write succeeds) still writes
the captured stdout to the output file.  Stated over `runProcess`, the
common spawn/wait/capture/write sequence, for an arbitrary cleanup tail. -/
theorem missing_exit_code_logged_minus_one (env : RunEnv) (name : String)
    (args : List String) (output_file : String) (tailEvents : List Event)
    (out : ProcOutput)
    (hspawn : env.spawnOk = true) (hwait : env.waitResult = some out)
    (hcode : out.code = none) :
    Event.logExitCode (-1) ∈ runProcess env name args output_file tailEvents
      ∧ Event.logInfo "Execution completed" ∈
          runProcess env name args output_file tailEvents
      ∧ (env.writeOutputOk = true →
          Event.writeOutput output_file out.stdout ∈
            runProcess env name args output_file tailEvents) := by
  refine ⟨?_, ?_, fun hwo => ?_⟩
  · simp [runProcess, hspawn, hwait, hcode]
  · cases hwo : env.writeOutputOk <;> simp [runProcess, hspawn, hwait, hwo]
  · simp [runProcess, hspawn, hwait, hwo]

/-- Witness for C8 at a concrete signal-killed child. -/
theorem missing_exit_code_logged_minus_one_witness :
    Event.logExitCode (-1) ∈ runProcess envNoCode "cmd.exe" [] "out.txt" []
      ∧ Event.logInfo "Execution completed" ∈
          runProcess envNoCode "cmd.exe" [] "out.txt" []
      ∧ (envNoCode.writeOutputOk = true →
          Event.writeOutput "out.txt" [5, 6] ∈
            runProcess envNoCode "cmd.exe" [] "out.txt" []) :=
  missing_exit_code_logged_minus_one envNoCode "cmd.exe" [] "out.txt" []
    { code := none, stdout := [5, 6], stderr := [7] }
    (by decide) (by decide) (by decide)

/-- Unfolding lemma: replacing in the empty string gives the empty string. -/
theorem replaceList_nil (pat rep : List Char) : replaceList [] pat rep = [] := by
  simp [replaceList]

/-- Unfolding lemma: when the pattern does not match at the head, the head
char is kept and scanning continues in the tail. -/
theorem replaceList_cons_not_pre (c : Char) (rest pat rep : List Char)
    (h : ¬ pat <+: (c :: rest)) :
    replaceList (c :: rest) pat rep = c :: replaceList rest pat rep := by
  rw [replaceList]
  exact dif_neg (fun hc => h hc.2)

/-- Unfolding lemma: when the string starts with the (nonempty) pattern,
the replacement is emitted and scanning continues after the match. -/
theorem replaceList_append_self (pat rest rep : List Char) (hp : pat ≠ []) :
    replaceList (pat ++ rest) pat rep = rep ++ replaceList rest pat rep := by
  cases pat with
  | nil => exact absurd rfl hp
  | cons p pt =>
    rw [List.cons_append, replaceList,
      dif_pos ⟨by simp, by rw [← List.cons_append]; exact List.prefix_append _ _⟩,
      ← List.cons_append, List.drop_left]

/-- A chunk with no opening brace is copied unchanged by a replacement
whose pattern starts with an opening brace. -/
theorem replaceList_chunk (chunk : List Char) : ∀ (rest pat rep tl : List Char),
    pat = '{' :: tl → '{' ∉ chunk →
    replaceList (chunk ++ rest) pat rep = chunk ++ replaceList rest pat rep := by
  induction chunk with
  | nil => intro rest pat rep tl _ _; simp
  | cons c cs ih =>
    intro rest pat rep tl hpat hchunk
    have hc : c ≠ '{' := fun h => hchunk (by rw [← h]; exact List.mem_cons_self c cs)
    rw [List.cons_append,
      replaceList_cons_not_pre c (cs ++ rest) pat rep (by
        intro hp
        rw [hpat] at hp
        exact hc ((List.cons_prefix_cons.mp hp).1).symm),
      ih rest pat rep tl hpat (fun hm => hchunk (List.mem_cons_of_mem c hm)),
      List.cons_append]

/-- Replacing a string that is exactly the (nonempty) pattern yields
exactly the replacement. -/
theorem replaceList_self (pat rep : List Char) (hp : pat ≠ []) :
    replaceList pat pat rep = rep := by
  have h := replaceList_append_self pat [] rep hp
  simpa [replaceList] using h

/-- A string with no opening brace is left unchanged by a replacement
whose pattern starts with an opening brace. -/
theorem replaceList_no_brace (s pat rep tl : List Char)
    (hpat : pat = '{' :: tl) (hs : '{' ∉ s) : replaceList s pat rep = s := by
  have h := replaceList_chunk s [] pat rep tl hpat hs
  simpa [replaceList] using h

/-- Two braceless keys followed by a closing brace can only align when the
keys are equal: a prefix of the form `w1 ++ '}' :: _` inside
`w ++ '}' :: _` forces `w1 = w`. -/
theorem key_prefix_eq (w1 : List Char) : ∀ (w t1 t : List Char), '}' ∉ w1 → '}' ∉ w →
    (w1 ++ '}' :: t1) <+: (w ++ '}' :: t) → w1 = w := by
  induction w1 with
  | nil =>
    intro w t1 t _ hw hp
    cases w with
    | nil => rfl
    | cons c cs =>
      exfalso
      simp only [List.nil_append, List.cons_append] at hp
      have h1 := (List.cons_prefix_cons.mp hp).1
      exact hw (by rw [h1]; exact List.mem_cons_self c cs)
  | cons a as ih =>
    intro w t1 t hw1 hw hp
    cases w with
    | nil =>
      exfalso
      simp only [List.cons_append, List.nil_append] at hp
      have h1 := (List.cons_prefix_cons.mp hp).1
      exact hw1 (by rw [← h1]; exact List.mem_cons_self a as)
    | cons c cs =>
      simp only [List.cons_append] at hp
      have h1 := List.cons_prefix_cons.mp hp
      have heq := ih cs t1 t (fun hm => hw1 (List.mem_cons_of_mem a hm))
        (fun hm => hw (List.mem_cons_of_mem c hm)) h1.2
      rw [h1.1, heq]

/-- A token pattern never matches at a position whose char is not `{`. -/
theorem tok_not_pre_cons (w1 : List Char) (c : Char) (rest : List Char)
    (hc : c ≠ '{') : ¬ tokStr w1 <+: c :: rest := by
  intro hp
  rw [tokStr] at hp
  exact hc ((List.cons_prefix_cons.mp hp).1).symm

/-- A token pattern never matches one position into another token (at the
second `{` of `{{w}}…`) when `w` is braceless. -/
theorem tok_not_pre_brace (w1 w rest : List Char) (hw : braceless w) :
    ¬ tokStr w1 <+: '{' :: (w ++ '}' :: '}' :: rest) := by
  intro hp
  rw [tokStr] at hp
  have h2 := (List.cons_prefix_cons.mp hp).2
  cases w with
  | nil =>
    simp only [List.nil_append] at h2
    exact absurd (List.cons_prefix_cons.mp h2).1 (by decide)
  | cons c cs =>
    simp only [List.cons_append] at h2
    have h3 := (List.cons_prefix_cons.mp h2).1
    exact hw.1 (by rw [h3]; exact List.mem_cons_self c cs)

/-- Distinct braceless tokens never overlap: the pattern `{{w1}}` does not
match at the start of `{{w}}…` when `w ≠ w1`. -/
theorem tok_ne_not_pre (w w1 rest : List Char) (hw : braceless w)
    (hw1 : braceless w1) (hne : w ≠ w1) :
    ¬ tokStr w1 <+: '{' :: '{' :: (w ++ '}' :: '}' :: rest) := by
  intro hp
  rw [tokStr] at hp
  have h2 := (List.cons_prefix_cons.mp hp).2
  have h3 := (List.cons_prefix_cons.mp h2).2
  have h4 : (w1 ++ '}' :: ['}']) <+: (w ++ '}' :: ('}' :: rest)) := by
    simpa using h3
  exact hne (key_prefix_eq w1 w ['}'] ('}' :: rest) hw1.2 hw.2 h4).symm

/-- A whole token with a different braceless key is copied unchanged. -/
theorem replaceList_tok_ne (w w1 rest rep : List Char) (hw : braceless w)
    (hw1 : braceless w1) (hne : w ≠ w1) :
    replaceList (tokStr w ++ rest) (tokStr w1) rep
      = tokStr w ++ replaceList rest (tokStr w1) rep := by
  have hshape : tokStr w ++ rest = '{' :: '{' :: (w ++ '}' :: '}' :: rest) := by
    simp [tokStr]
  rw [hshape,
    replaceList_cons_not_pre _ _ _ _ (tok_ne_not_pre w w1 rest hw hw1 hne),
    replaceList_cons_not_pre _ _ _ _ (tok_not_pre_brace w1 w rest hw),
    replaceList_chunk w ('}' :: '}' :: rest) (tokStr w1) rep _ rfl hw.1,
    replaceList_cons_not_pre _ _ _ _ (tok_not_pre_cons w1 '}' _ (by decide)),
    replaceList_cons_not_pre _ _ _ _ (tok_not_pre_cons w1 '}' _ (by decide))]
  simp [tokStr]

/-- One replacement pass over a rendered well-formed template substitutes
exactly the occurrences of the token with the given braceless key and
copies everything else — literal chunks and every other token —
unchanged. -/
theorem replaceList_render (w1 rep : List Char) (hw1 : braceless w1) :
    ∀ segs : List Seg, (∀ g ∈ segs, segOk g) →
      replaceList (render segs) (tokStr w1) rep
        = render (segs.map (substTok w1 rep)) := by
  intro segs
  induction segs with
  | nil => intro _; simp [render, replaceList]
  | cons g rest ih =>
    intro hok
    have hg : segOk g := hok g (List.mem_cons_self g rest)
    have hrest : ∀ x ∈ rest, segOk x := fun x hx => hok x (List.mem_cons_of_mem g hx)
    cases g with
    | lit s =>
      calc replaceList (render (Seg.lit s :: rest)) (tokStr w1) rep
          = replaceList (s ++ render rest) (tokStr w1) rep := by
            simp [render, renderSeg]
        _ = s ++ replaceList (render rest) (tokStr w1) rep :=
            replaceList_chunk s (render rest) (tokStr w1) rep _ rfl hg.1
        _ = s ++ render (rest.map (substTok w1 rep)) := by rw [ih hrest]
        _ = render ((Seg.lit s :: rest).map (substTok w1 rep)) := by
            simp [render, renderSeg, substTok]
    | tok w =>
      by_cases hww : w = w1
      · subst hww
        calc replaceList (render (Seg.tok w :: rest)) (tokStr w) rep
            = replaceList (tokStr w ++ render rest) (tokStr w) rep := by
              simp [render, renderSeg]
          _ = rep ++ replaceList (render rest) (tokStr w) rep :=
              replaceList_append_self (tokStr w) (render rest) rep (by simp [tokStr])
          _ = rep ++ render (rest.map (substTok w rep)) := by rw [ih hrest]
          _ = render ((Seg.tok w :: rest).map (substTok w rep)) := by
              simp [render, renderSeg, substTok]
      · calc replaceList (render (Seg.tok w :: rest)) (tokStr w1) rep
            = replaceList (tokStr w ++ render rest) (tokStr w1) rep := by
              simp [render, renderSeg]
          _ = tokStr w ++ replaceList (render rest) (tokStr w1) rep :=
              replaceList_tok_ne w w1 (render rest) rep hg hw1 hww
          _ = tokStr w ++ render (rest.map (substTok w1 rep)) := by rw [ih hrest]
          _ = render ((Seg.tok w :: rest).map (substTok w1 rep)) := by
              simp [render, renderSeg, substTok, hww]

/-- Substitution by a braceless value preserves segment well-formedness. -/
theorem segOk_substTok (key val : List Char) (hval : braceless val) (g : Seg)
    (hg : segOk g) : segOk (substTok key val g) := by
  cases g with
  | lit s => exact hg
  | tok w =>
    by_cases hwk : w = key
    · simpa [substTok, hwk, segOk] using hval
    · simpa [substTok, hwk, segOk] using hg

/-- C9: for every well-formed template (a concatenation of braceless
literal chunks and `{{w}}` tokens with braceless keys), and a braceless
machine name, output-filename expansion replaces every `{{hostname}}`
token by the machine name and every `{{datetime}}` token by the local
datetime rendered `YYYY-MM-DD_HH-MM-SS`, and leaves every other `{{...}}`
token (and all literal text) unchanged. -/
theorem template_tokens_expanded (hostRes : Option (List Char))
    (y mo d h mi s : Nat) (segs : List Seg)
    (hsegs : ∀ g ∈ segs, segOk g)
    (hhost : braceless (hostRes.getD ("machine".toList))) :
    get_output_filename hostRes y mo d h mi s (render segs)
      = render (segs.map (fun g =>
          substTok ("datetime".toList) (formatDatetime y mo d h mi s)
            (substTok ("hostname".toList) (hostRes.getD ("machine".toList)) g))) := by
  have hok2 : ∀ g ∈ segs.map (substTok ("hostname".toList)
      (hostRes.getD ("machine".toList))), segOk g := by
    intro g hg
    rw [List.mem_map] at hg
    obtain ⟨g0, hg0, rfl⟩ := hg
    exact segOk_substTok _ _ hhost g0 (hsegs g0 hg0)
  unfold get_output_filename expandTemplate
  rw [replaceList_render ("hostname".toList) (hostRes.getD ("machine".toList))
      (by decide) segs hsegs,
    replaceList_render ("datetime".toList) (formatDatetime y mo d h mi s)
      (by decide) _ hok2,
    List.map_map]
  rfl

/-- Witness for C9 at a concrete template with a literal chunk, both
recognised tokens, and an unrecognised token. -/
theorem template_tokens_expanded_witness :
    (∀ g ∈ segsW, segOk g)
      ∧ braceless ((some ("HOST-1".toList) : Option (List Char)).getD
          ("machine".toList))
      ∧ get_output_filename (some ("HOST-1".toList)) 2024 1 2 3 4 5 (render segsW)
        = render (segsW.map (fun g =>
            substTok ("datetime".toList) (formatDatetime 2024 1 2 3 4 5)
              (substTok ("hostname".toList)
                ((some ("HOST-1".toList) : Option (List Char)).getD
                  ("machine".toList)) g))) :=
  ⟨by decide, by decide,
    template_tokens_expanded (some ("HOST-1".toList)) 2024 1 2 3 4 5 segsW
      (by decide) (by decide)⟩

/-- C10: when the machine name cannot be obtained or converted (`hostRes =
none`), expansion behaves exactly as if the machine name were the literal
"machine" — on every template — and in particular the `{{hostname}}`
token expands to "machine"; nothing fails. -/
theorem hostname_fallback_machine (y mo d h mi s : Nat) (template : List Char) :
    get_output_filename none y mo d h mi s template
      = get_output_filename (some ("machine".toList)) y mo d h mi s template
    ∧ get_output_filename none y mo d h mi s (tokStr ("hostname".toList))
      = "machine".toList := by
  constructor
  · rfl
  · show replaceList
        (replaceList (tokStr ("hostname".toList)) (tokStr ("hostname".toList))
          ("machine".toList))
        (tokStr ("datetime".toList)) (formatDatetime y mo d h mi s)
      = "machine".toList
    rw [replaceList_self (tokStr ("hostname".toList)) ("machine".toList)
      (by simp [tokStr])]
    exact replaceList_no_brace ("machine".toList) (tokStr ("datetime".toList))
      (formatDatetime y mo d h mi s) _ rfl (by decide)

end Aralez
